import Mathlib

/-
Verification development for the mem-analyser stack-paint analyser.

Shallow embedding of the Rust sources:
  src/mem_monitoring.rs  (RamSnapshot, RamSnapshotRecorder, statistics, scanner)
  src/asm_parsing.rs     (disassembly listing parser and queries)
  src/cpu.rs             (halt-bracketed access discipline)

Machine integers (u32/usize) are modelled as Nat; all subtractions that occur
are non-underflowing in the modelled executions (u32 wrap-around never fires
on the inputs considered, and the source's own guards keep counters in range).
Rust panics (unwrap/indexing/assert) are modelled as the `none` case of an
`Option` result, or by a dedicated `panic` constructor where noted.
-/

/- std::ops::Range<u32>.  `stop` models the Rust field `end` (a Lean keyword).
Half-open: contains x iff start ≤ x < stop. -/
structure RangeU32 where
  start : Nat
  stop : Nat
deriving DecidableEq

/- mem_monitoring.rs lines 9-21: transient open range of the scanner. -/
structure UsedRange where
  start : Nat
deriving DecidableEq

def UsedRange.new (start : Nat) : UsedRange := ⟨start⟩

/- `fn complete(self, end: u32) -> Range<u32> { end..self.start }` -/
def UsedRange.complete (u : UsedRange) (e : Nat) : RangeU32 := ⟨e, u.start⟩

/- mem_monitoring.rs lines 23-31. -/
structure RamSnapshot where
  used_bytes : Nat
  stack_ptr_offset : Nat
  ranges : List RangeU32
  instr_ptr : Nat
  function : String
deriving DecidableEq

/- impl PartialEq for RamSnapshot (lines 33-39): compares used_bytes,
stack_ptr_offset AND ranges. -/
def RamSnapshot.peq (a b : RamSnapshot) : Bool :=
  decide (a.used_bytes = b.used_bytes)
    && decide (a.stack_ptr_offset = b.stack_ptr_offset)
    && decide (a.ranges = b.ranges)

/- impl PartialOrd (lines 41-54): keyed on used_bytes then stack_ptr_offset
only; ranges are ignored by the ordering (but not by equality). -/
def RamSnapshot.cmp (a b : RamSnapshot) : Ordering :=
  match compare a.used_bytes b.used_bytes with
  | Ordering.eq => compare a.stack_ptr_offset b.stack_ptr_offset
  | o => o

/- mem_monitoring.rs lines 68-75. -/
structure RamStatistics where
  median_stack_ptr_off : Nat
  max_stack_ptr_off : Nat
  max_mem_usage : Nat
  stack_ptr_course : List Nat
  mem_usage_course : List Nat
deriving DecidableEq

/- mem_monitoring.rs lines 77-83.  `analyse_interval` (a Duration) is
modelled in milliseconds; neither field is read by any modelled operation. -/
structure RamSnapshotRecorder where
  analyse_interval : Nat
  static_ram_size : Nat
  snapshot_variants : List RamSnapshot
  records : List Nat
deriving DecidableEq

/- RamSnapshotRecorder::new (lines 86-93). -/
def RamSnapshotRecorder.new (static_ram_size analyse_interval : Nat) :
    RamSnapshotRecorder :=
  { analyse_interval := analyse_interval
    static_ram_size := static_ram_size
    snapshot_variants := []
    records := [] }

/- Iterator::position over a list (used by record's variant search). -/
def position (p : α → Bool) : List α → Option Nat
  | [] => none
  | a :: as => if p a then some 0 else (position p as).map (· + 1)

/- RamSnapshotRecorder::record (lines 95-104).  Vec::push is `++ [x]`;
the new index pushed in the None branch is `snapshot_variants.len() - 1`
measured after the push. -/
def RamSnapshotRecorder.record (r : RamSnapshotRecorder) (snapshot : RamSnapshot) :
    RamSnapshotRecorder :=
  match position (fun v => RamSnapshot.peq v snapshot) r.snapshot_variants with
  | some index => { r with records := r.records ++ [index] }
  | none =>
    { r with
      snapshot_variants := r.snapshot_variants ++ [snapshot]
      records := r.records ++ [(r.snapshot_variants ++ [snapshot]).length - 1] }

/- A fresh recorder fed a chronological list of snapshots. -/
def recordAll (snaps : List RamSnapshot) : RamSnapshotRecorder :=
  snaps.foldl RamSnapshotRecorder.record (RamSnapshotRecorder.new 0 0)

/- Insertion into an ascending list; `sortAsc` models
`sort_unstable_by(|x, y| x.partial_cmp(y).unwrap())` on Vec<u32>: any
comparison sort by ≤ on naturals produces the same ascending list, so the
model is exact. -/
def insertSorted (x : Nat) : List Nat → List Nat
  | [] => [x]
  | y :: ys => if x ≤ y then x :: y :: ys else y :: insertSorted x ys

def sortAsc (l : List Nat) : List Nat := l.foldr insertSorted []

/- percentile_of_sorted (mem_monitoring.rs lines 148-166).  The f32
arithmetic is modelled exactly: every value arising for the pct/length
combinations exercised by the program (pct = 50.0, small lengths) is
exactly representable in f32, so exact rational arithmetic coincides with
the source.  `rank = (pct / 100) * length` is carried as the fraction
rnum / rden with rnum = pct.num * length and rden = pct.den * 100 (pct is
non-negative past the assert, so pct.num.toNat is faithful);
`lrank = rank.floor()` and the cast `lrank as usize` are the Nat division
rnum / rden; `d = rank - lrank` lies in [0, 1) and the truncating cast
`d as u32` is (rnum % rden) / rden.  The asserts (empty input, pct outside
0..=100) are modelled as `none`, as is out-of-bounds indexing (impossible
for in-range pct). -/
def percentile_of_sorted (sorted_samples : List Nat) (pct : ℚ) : Option Nat :=
  match sorted_samples with
  | [] => none
  | [x] => some x
  | _ =>
    if pct < 0 then none
    else if 100 < pct then none
    else if pct = 100 then sorted_samples.getLast?
    else
      let length : Nat := sorted_samples.length - 1
      let rnum : Nat := pct.num.toNat * length
      let rden : Nat := pct.den * 100
      let n : Nat := rnum / rden
      let dtrunc : Nat := rnum % rden / rden
      match sorted_samples[n]?, sorted_samples[n + 1]? with
      | some lo, some hi => some (lo + (hi - lo) * dtrunc)
      | _, _ => none

/- `records.iter().map(|r| self.snapshot_variants[*r].f)`: indexing out of
bounds is a Rust panic, modelled as `none`. -/
def derefMap (r : RamSnapshotRecorder) (f : RamSnapshot → Nat) : Option (List Nat) :=
  r.records.mapM (fun i => (r.snapshot_variants[i]?).map f)

/- RamSnapshotRecorder::calculate_statistics (lines 106-136).  The
`last().unwrap()` on an empty sorted vector and the percentile asserts are
panics, modelled as `none`; evaluation order of the panics follows the
source (stack-pointer signal first, then memory-usage signal). -/
def RamSnapshotRecorder.calculate_statistics (r : RamSnapshotRecorder) :
    Option RamStatistics :=
  match derefMap r RamSnapshot.stack_ptr_offset with
  | none => none
  | some stack_ptrs_off =>
    let stack_ptr_course := stack_ptrs_off
    let sorted_off := sortAsc stack_ptrs_off
    match percentile_of_sorted sorted_off 50 with
    | none => none
    | some median_stack_ptr_off =>
      match sorted_off.getLast? with
      | none => none
      | some max_stack_ptr_off =>
        match derefMap r RamSnapshot.used_bytes with
        | none => none
        | some mem_usage =>
          let mem_usage_course := mem_usage
          match (sortAsc mem_usage).getLast? with
          | none => none
          | some max_mem_usage =>
            some
              { median_stack_ptr_off := median_stack_ptr_off
                max_stack_ptr_off := max_stack_ptr_off
                max_mem_usage := max_mem_usage
                stack_ptr_course := stack_ptr_course
                mem_usage_course := mem_usage_course }

/- RamSnapshotRecords (lines 168-183): the iterator state is `pos`.
`next` (lines 176-182): if pos equals the record count, yield nothing;
otherwise clone the variant at records[pos].  The source never increments
`self.pos`, so the returned position is `pos` unchanged.  The two
indexings are in-bounds whenever pos < records.len() and the recorder was
built by `record` (see the C10 invariant); an out-of-bounds index would be
a Rust panic, modelled as `none`. -/
def recordsNext (r : RamSnapshotRecorder) (pos : Nat) : Option (RamSnapshot × Nat) :=
  if pos = r.records.length then none
  else
    match r.records[pos]? with
    | none => none
    | some snap_index =>
      match r.snapshot_variants[snap_index]? with
      | none => none
      | some s => some (s, pos)

/- Drive the iterator for at most `fuel` calls to next, collecting yields. -/
def iterTake (r : RamSnapshotRecorder) : Nat → Nat → List RamSnapshot
  | 0, _ => []
  | Nat.succ k, pos =>
    match recordsNext r pos with
    | none => []
    | some (s, pos2) => s :: iterTake r k pos2

/- ===================== Stack paint scanner ===================== -/

/- Loop state of calculate_used_ram's closure (mem_monitoring.rs
lines 217-281).  `address` is the u32 address about to be read. -/
structure ScanState where
  used_bytes : Nat
  address : Nat
  offset_mem : List Nat
  in_offset_flag : Bool
  test_offset : Nat
  act_range : Option UsedRange
  ranges : List RangeU32
deriving DecidableEq

/- `for mb in offset_mem.iter().rev() { if *mb == 0x55 { not_used += 1 } }`:
counts sentinel bytes; reverse iteration does not affect the count. -/
def count55 (l : List Nat) : Nat :=
  l.foldl (fun acc mb => if mb = 85 then acc + 1 else acc) 0

/- Lines 235-251: `if TEST_OFFSET - test_offset > OFFSET_BETWEEN_RANGES`
(20) close the open range, adjusting its lower end upward by the number of
sentinel bytes accumulated in offset_mem, and clear offset_mem.  Called
after the current byte was pushed onto offset_mem.  TEST_OFFSET = 128;
test_offset never exceeds 128, so u32 subtraction equals Nat subtraction. -/
def closeCheck (st : ScanState) : ScanState :=
  if 20 < 128 - st.test_offset then
    match st.act_range with
    | some u =>
      { st with
        ranges := st.ranges ++ [u.complete (st.address + count55 st.offset_mem)]
        act_range := none
        offset_mem := [] }
    | none => st
  else st

/- Lines 233-267: the `if in_offset_flag` block.  Returns the updated state
and whether the loop `break`s (line 263). -/
def scanStep1 (st : ScanState) (m : Nat) : ScanState × Bool :=
  if st.in_offset_flag then
    let st1 := closeCheck { st with offset_mem := st.offset_mem ++ [m] }
    if m ≠ 85 then
      ({ st1 with
          in_offset_flag := false
          used_bytes := st1.used_bytes + 1
          act_range :=
            match st1.act_range with
            | none => some (UsedRange.new st1.address)
            | some u => some u
          test_offset := 128 }, false)
    else if st1.test_offset = 0 then (st1, true)
    else ({ st1 with test_offset := st1.test_offset - 1 }, false)
  else (st, false)

/- Lines 269-280: unconditional classification of the byte, then
`address -= 1`. -/
def scanStep2 (st : ScanState) (m : Nat) : ScanState :=
  let st1 :=
    if m = 85 then { st with in_offset_flag := true }
    else
      { st with
        used_bytes := st.used_bytes + 1
        act_range :=
          match st.act_range with
          | none => some (UsedRange.new st.address)
          | some u => some u }
  { st1 with address := st1.address - 1 }

/- The `while let Ok(m) = core.read_word_8(address)` loop.  Memory is
modelled as the finite list of byte values the successive reads return;
exhausting the list models the first failing read (unmapped address or
access error).  The second component counts the reads performed. -/
def scanLoop : ScanState → List Nat → ScanState × Nat
  | st, [] => (st, 0)
  | st, m :: rest =>
    match scanStep1 st m with
    | (st1, true) => (st1, 1)
    | (st1, false) =>
      let out := scanLoop (scanStep2 st1 m) rest
      (out.1, out.2 + 1)

/- Line 219-226: initial loop state; the first read is at stack_ptr - 1. -/
def initScanState (stack_ptr : Nat) : ScanState :=
  { used_bytes := 0
    address := stack_ptr - 1
    offset_mem := []
    in_offset_flag := false
    test_offset := 128
    act_range := none
    ranges := [] }

/- Number of touched (non-sentinel) bytes in a byte stream, as the claims
phrase it. -/
def touchedCount (bs : List Nat) : Nat :=
  (bs.filter (fun b => decide (b ≠ 85))).length

/- ===================== Disassembly index ===================== -/

/- asm_parsing.rs lines 5-13.  The io::Error payloads carry no structure
relevant here; LineParseError keeps its line index, AddrParseError keeps
the offending address text (it has no line field in the source). -/
inductive AsmError where
  | FailedOpeningAsmFile
  | LineParseError (line : Nat)
  | AddrParseError (addr : String)
deriving DecidableEq

/- Does the error value identify a line index?  Only LineParseError has a
`line: usize` field in the source. -/
def AsmError.carriesLineIndex : AsmError → Bool
  | AsmError.LineParseError _ => true
  | _ => false

/- asm_parsing.rs lines 15-19. -/
inductive Instruction where
  | Any (text : String)
  | Branch (dest : String)
deriving DecidableEq

/- asm_parsing.rs lines 21-26. -/
structure Function where
  name : String
  range : RangeU32
  instructions : List (Nat × Instruction)
deriving DecidableEq

/- asm_parsing.rs lines 28-31. -/
structure AsmFile where
  functions : List Function
deriving DecidableEq

/- AsmFile::get_function_based_on_addr (lines 39-44): first function whose
half-open range contains the address. -/
def AsmFile.get_function_based_on_addr (asm : AsmFile) (addr : Nat) : Option Function :=
  asm.functions.find? (fun s => decide (s.range.start ≤ addr) && decide (addr < s.range.stop))

/- One step of the loop in get_subfunctions_of_function (lines 53-68):
`none` models the `.unwrap()` panic on a branch destination absent from
the index. -/
def subfunStep (asm : AsmFile) (acc : Option (List Function)) (pair : Nat × Instruction) :
    Option (List Function) :=
  match acc with
  | none => none
  | some fs =>
    match pair.2 with
    | Instruction.Branch dest =>
      match fs.find? (fun f => decide (f.name = dest)) with
      | some _ => some fs
      | none =>
        match asm.functions.find? (fun f => decide (f.name = dest)) with
        | some g => some (fs ++ [g])
        | none => none
    | Instruction.Any _ => some fs

/- AsmFile::get_subfunctions_of_function (lines 46-71).  Outer `none`
models the Rust panic on an unresolved callee; `some none` is the source's
`None` ("function not found"); `some (some fs)` the successful result. -/
def AsmFile.get_subfunctions_of_function (asm : AsmFile) (function : String) :
    Option (Option (List Function)) :=
  match asm.functions.find? (fun f => decide (f.name = function)) with
  | none => some none
  | some f =>
    match f.instructions.foldl (subfunStep asm) (some []) with
    | none => none
    | some fs => some (some fs)

/- calculate_used_ram (mem_monitoring.rs lines 212-308), success path of
the halt bracket.  The register reads that follow the loop are modelled by
the values they return (`act_stack_ptr`, `instr_ptr`); the scan's memory
reads by `mem` as in scanLoop.  The `.unwrap()` on
get_function_based_on_addr (line 301) panics when the program counter lies
in no indexed range: modelled as `none`. -/
def calculate_used_ram (stack_ptr : Nat) (mem : List Nat)
    (act_stack_ptr instr_ptr : Nat) (asm : AsmFile) : Option RamSnapshot :=
  let st := (scanLoop (initScanState stack_ptr) mem).1
  match asm.get_function_based_on_addr instr_ptr with
  | none => none
  | some f =>
    some
      { used_bytes := st.used_bytes
        stack_ptr_offset := stack_ptr - act_stack_ptr
        ranges := st.ranges
        instr_ptr := instr_ptr
        function := f.name }

/- ===================== CPU halt bracket ===================== -/

/- CPU::access_only_in_halt_mode (cpu.rs lines 74-98).  The core's
run-state is the Bool `core_halted` (true = halted); the probe primitives
core_halted()/halt()/run() are modelled as infallible reads/updates of
that state.  The wrapped access is modelled by the Except value it
returns; `func(&mut core)?` propagates an error immediately, so the
trailing `if !prev_state_halt { self.run()?; }` is skipped on that path.
Returns the bracket's result and the run-state on exit. -/
def access_only_in_halt_mode {T : Type} (core_halted : Bool) (func : Except Unit T) :
    Except Unit T × Bool :=
  let prev_state_halt := core_halted
  let halted1 := if !prev_state_halt then true else core_halted
  match func with
  | Except.error e => (Except.error e, halted1)
  | Except.ok v => (Except.ok v, if !prev_state_halt then false else halted1)

/- ===================== Listing parser ===================== -/

/- Regex word character `[\d\w]` (ASCII inputs): letters, digits, '_'. -/
def isWordChar (c : Char) : Bool := c.isAlphanum || c = '_'

/- u32::from_str_radix(s, 16) (asm_parsing.rs lines 121, 132).  The
captured address text consists of word characters only, so the sign
handling of from_str_radix is unreachable; digits outside 0-9/a-f/A-F or
a value ≥ 2^32 give Err. -/
def hexDigitVal (c : Char) : Option Nat :=
  if c.isDigit then some (c.toNat - '0'.toNat)
  else if decide ('a' ≤ c) && decide (c ≤ 'f') then some (c.toNat - 'a'.toNat + 10)
  else if decide ('A' ≤ c) && decide (c ≤ 'F') then some (c.toNat - 'A'.toNat + 10)
  else none

def from_str_radix_16 (s : String) : Option Nat :=
  let cs := s.toList
  if cs.isEmpty then none
  else
    match cs.mapM hexDigitVal with
    | none => none
    | some ds =>
      let v := ds.foldl (fun a d => a * 16 + d) 0
      if v < 2 ^ 32 then some v else none

/- Largest index r ≥ 1 with cs[r] = '>' and cs[r+1] = ':' — the greedy
`[\s\S]+` of the function-heading regex makes the captured name run to the
last `>:`; r ≥ 1 keeps the name non-empty. -/
def lastNameEnd (cs : List Char) : Option Nat :=
  (List.range cs.length).foldl
    (fun acc r =>
      if decide (1 ≤ r) && decide (cs.getD r ' ' = '>') && decide (cs.getD (r + 1) ' ' = ':')
      then some r else acc)
    none

/- Chars following the address run must read ` <name>:` for a function
heading. -/
def tryHeadingTail : List Char → Option String
  | ' ' :: '<' :: rest2 =>
    match lastNameEnd rest2 with
    | some r => some (String.mk (rest2.take r))
    | none => none
  | _ => none

/- Leftmost-first search for the function-heading regex
`(?P<addr>[\d\w]+) <(?P<func_name>[\s\S]+)>:` (asm_parsing.rs line 107).
A match must start at a word character; the greedy address run is maximal
(a shorter run would end at a word character, not the required space), and
if a start fails every start inside the same run fails for the same
reason, so advancing one character at a time is exact. -/
def headingLoop : List Char → Option (String × String)
  | [] => none
  | c :: rest =>
    if isWordChar c then
      match tryHeadingTail (rest.dropWhile isWordChar) with
      | some nm => some (String.mk (c :: rest.takeWhile isWordChar), nm)
      | none => headingLoop rest
    else headingLoop rest

def matchHeading (line : String) : Option (String × String) := headingLoop line.toList

/- After a leading space: address run, ':', tab, then the instruction text
runs to the end of the line (greedy `[\s\S]*` with nothing after it). -/
def tryInstrTail (cs : List Char) : Option (String × String) :=
  let run := cs.takeWhile isWordChar
  if run.isEmpty then none
  else
    match cs.dropWhile isWordChar with
    | ':' :: '\t' :: instr => some (String.mk run, String.mk instr)
    | _ => none

/- Leftmost-first search for the instruction-line regex
` (?P<addr>[\d\w]+):\t(?P<instr_line>[\s\S]*)` (line 108). -/
def instrLoop : List Char → Option (String × String)
  | [] => none
  | c :: rest =>
    if c = ' ' then
      match tryInstrTail rest with
      | some r => some r
      | none => instrLoop rest
    else instrLoop rest

def matchInstr (line : String) : Option (String × String) := instrLoop line.toList

def hasCharFrom (cs : List Char) (j : Nat) (c : Char) : Bool := (cs.drop j).contains c

/- Largest index holding c. -/
def lastIdxOf (cs : List Char) (c : Char) : Option Nat :=
  (List.range cs.length).foldl
    (fun acc i => if decide (cs.getD i ' ' = c) then some i else acc) none

/- Tail of the call regex after `bl`: `[\s\S]+<(?P<func_name>[\s\S]+)>`.
Greedy: the '<' is the last one that still leaves a name of at least one
character closed by a later '>', and the name runs to the last '>'. -/
def blTail (r : List Char) : Option String :=
  let kq :=
    (List.range r.length).foldl
      (fun acc k =>
        if decide (1 ≤ k) && decide (r.getD k ' ' = '<') && hasCharFrom r (k + 2) '>'
        then some k else acc)
      none
  match kq with
  | none => none
  | some k =>
    match lastIdxOf r '>' with
    | none => none
    | some m => some (String.mk ((r.drop (k + 1)).take (m - (k + 1))))

/- Call-instruction regex `[\s\S]+\tbl[\s\S]+<(?P<func_name>[\s\S]+)>`
(line 109), applied to the captured instruction text.  The leading greedy
`[\s\S]+` selects the last `\tbl` occurrence (i ≥ 1) after which the rest
still matches. -/
def matchBl (text : String) : Option String :=
  let cs := text.toList
  let iq :=
    (List.range cs.length).foldl
      (fun acc i =>
        if decide (1 ≤ i) && decide (cs.getD i ' ' = '\t') && decide (cs.getD (i + 1) ' ' = 'b')
            && decide (cs.getD (i + 2) ' ' = 'l') && (blTail (cs.drop (i + 3))).isSome
        then some i else acc)
      none
  match iq with
  | none => none
  | some i => blTail (cs.drop (i + 3))

/- asm_parsing.rs lines 78-99. -/
structure FunctionHeader where
  name : String
  start_addr : Nat
  instructions : List (Nat × Instruction)
deriving DecidableEq

/- FunctionHeader::complete (lines 92-98): `instructions.last().unwrap()`
panics on an empty instruction list — modelled as `none`; the range end is
the last instruction's address + 1. -/
def FunctionHeader.complete (f : FunctionHeader) : Option Function :=
  match f.instructions.getLast? with
  | none => none
  | some lastI =>
    some
      { name := f.name
        range := ⟨f.start_addr, lastI.1 + 1⟩
        instructions := f.instructions }

/- Mutable state of parse_asm_file's loop (lines 101-146). -/
structure ParserState where
  functions : List Function
  actual_function : Option FunctionHeader
deriving DecidableEq

def initParserState : ParserState := ⟨[], none⟩

/- Outcome of processing lines: `panic` models the unchecked
`complete()` crash on a zero-instruction function. -/
inductive StepRes where
  | ok (st : ParserState)
  | err (e : AsmError)
  | panic
deriving DecidableEq

inductive ParseRes where
  | ok (f : AsmFile)
  | err (e : AsmError)
  | panic
deriving DecidableEq

/- The loop body (lines 118-145): function headings are recognised first;
an address-parse failure aborts with AddrParseError carrying the offending
address text (before the accumulator is touched); instruction lines
outside any open function accumulator are ignored. -/
def processLine (st : ParserState) (line : String) : StepRes :=
  match matchHeading line with
  | some (function_addr, function_name) =>
    match from_str_radix_16 function_addr with
    | none => StepRes.err (AsmError.AddrParseError function_addr)
    | some addr =>
      let fh : FunctionHeader := ⟨function_name, addr, []⟩
      match st.actual_function with
      | some old =>
        match old.complete with
        | none => StepRes.panic
        | some f => StepRes.ok ⟨st.functions ++ [f], some fh⟩
      | none => StepRes.ok ⟨st.functions, some fh⟩
  | none =>
    match matchInstr line with
    | some (instr_addr, instr_line) =>
      match from_str_radix_16 instr_addr with
      | none => StepRes.err (AsmError.AddrParseError instr_addr)
      | some addr =>
        let instruction :=
          match matchBl instr_line with
          | some dest_func => Instruction.Branch dest_func
          | none => Instruction.Any instr_line
        match st.actual_function with
        | some fh =>
          StepRes.ok ⟨st.functions, some { fh with instructions := fh.instructions ++ [(addr, instruction)] }⟩
        | none => StepRes.ok st
    | none => StepRes.ok st

def processLines (st : ParserState) : List String → StepRes
  | [] => StepRes.ok st
  | l :: ls =>
    match processLine st l with
    | StepRes.ok st2 => processLines st2 ls
    | r => r

/- parse_asm_file (lines 101-153) on an in-memory list of lines.  Reading
a line from a BufReader over an already-opened in-memory source cannot
fail, so LineParseError is unreachable in this embedding. -/
def parse_asm_file (lines : List String) : ParseRes :=
  match processLines initParserState lines with
  | StepRes.ok st =>
    match st.actual_function with
    | some fh =>
      match fh.complete with
      | none => ParseRes.panic
      | some f => ParseRes.ok ⟨st.functions ++ [f]⟩
    | none => ParseRes.ok ⟨st.functions⟩
  | StepRes.err e => ParseRes.err e
  | StepRes.panic => ParseRes.panic

/- ===================== Concrete inputs ===================== -/

def c1snapA : RamSnapshot := ⟨4, 16, [], 0, "main"⟩

def c1snapB : RamSnapshot := ⟨8, 32, [], 0, "main"⟩

def c1rec : RamSnapshotRecorder := recordAll [c1snapA, c1snapB]

/- Snapshot with a given key and range evidence. -/
def mkSnap (c o : Nat) (rs : List RangeU32) : RamSnapshot := ⟨c, o, rs, 0, ""⟩

def snapOff (o : Nat) : RamSnapshot := ⟨0, o, [], 0, ""⟩

/- Recorder whose stack-pointer-offset course is [10, 20, 30, 40]. -/
def c3rec : RamSnapshotRecorder :=
  recordAll [snapOff 10, snapOff 20, snapOff 30, snapOff 40]

/- A one-function index covering addresses 0x10..0x20 only. -/
def asmC6 : AsmFile := ⟨[⟨"main", ⟨16, 32⟩, [(16, Instruction.Any "nop")]⟩]⟩

def c7lines : List String :=
  ["00000010 <A>:",
   " 1e:\tf7ff ffff \tbl\t20 <B>",
   " 1f:\tf7ff fffe \tbl\t20 <B>",
   "00000020 <B>:",
   " 2f:\t4770      \tbx\tlr"]

def c7res : ParseRes := parse_asm_file c7lines

def ParseRes.isOkB : ParseRes → Bool
  | ParseRes.ok _ => true
  | _ => false

/- Name of the function resolved for an address, through a parse result. -/
def resolveName (r : ParseRes) (addr : Nat) : Option String :=
  match r with
  | ParseRes.ok asm => (asm.get_function_based_on_addr addr).map Function.name
  | _ => none

/- Names of the deduplicated direct callees, through a parse result. -/
def calleeNames (r : ParseRes) (fn : String) : Option (Option (List String)) :=
  match r with
  | ParseRes.ok asm =>
    (asm.get_subfunctions_of_function fn).map (fun o => o.map (fun fs => fs.map Function.name))
  | _ => none

/- Whether a parse outcome is an error whose value carries a line index. -/
def parseErrHasLineIdx : ParseRes → Bool
  | ParseRes.err e => e.carriesLineIndex
  | _ => false

/- First (header or instruction) address capture of the line that fails
hex parsing, if any. -/
def lineBadAddr (line : String) : Option String :=
  match matchHeading line with
  | some (addrS, _) => if (from_str_radix_16 addrS).isSome then none else some addrS
  | none =>
    match matchInstr line with
    | some (addrS, _) => if (from_str_radix_16 addrS).isSome then none else some addrS
    | none => none

/- ===================== C1 ===================== -/

/-- C1: the spec says get_records yields exactly the n recorded snapshots
and then ends.  The source's Iterator::next never increments `self.pos`,
so on a recorder with two records three successive calls all yield the
first snapshot and the iteration never ends: the claim is right and the
code is wrong (evaluation of the code at the failing input). -/
theorem c1_iter_never_advances :
    c1rec.records.length = 2 ∧
    recordsNext c1rec 0 = some (c1snapA, 0) ∧
    iterTake c1rec 3 0 = [c1snapA, c1snapA, c1snapA] := by
  decide

/- ===================== C2 ===================== -/

/-- C2 counterexample: three snapshots agreeing on (touched-byte count,
stack-pointer offset) but with pairwise different range lists produce
THREE variant-table entries, not one: RamSnapshot's PartialEq also
compares `ranges`. -/
theorem c2_counterexample :
    (recordAll [mkSnap 5 7 [⟨0, 1⟩], mkSnap 5 7 [⟨1, 2⟩], mkSnap 5 7 [⟨2, 3⟩]]).snapshot_variants.length = 3 ∧
    (recordAll [mkSnap 5 7 [⟨0, 1⟩], mkSnap 5 7 [⟨1, 2⟩], mkSnap 5 7 [⟨2, 3⟩]]).snapshot_variants.length ≠ 1 := by
  decide

/-- C2 amended: recording three snapshots that agree on touched-byte count
and stack-pointer offset but have pairwise different touched-range lists
produces THREE entries in the variant table and the chronological index
list [0, 1, 2]: snapshot equality compares (touched-byte count,
stack-pointer offset, ranges); only the ordering ignores ranges. -/
theorem c2_amended (c o : Nat) (r1 r2 r3 : List RangeU32)
    (h12 : r1 ≠ r2) (h13 : r1 ≠ r3) (h23 : r2 ≠ r3) :
    (recordAll [mkSnap c o r1, mkSnap c o r2, mkSnap c o r3]).snapshot_variants.length = 3 ∧
    (recordAll [mkSnap c o r1, mkSnap c o r2, mkSnap c o r3]).records = [0, 1, 2] := by
  simp [recordAll, RamSnapshotRecorder.record, RamSnapshotRecorder.new, mkSnap,
    position, RamSnapshot.peq, h12, h13, h23]

/-- C2 amended, witness: the amended statement at concrete range lists. -/
theorem c2_amended_witness :
    (recordAll [mkSnap 9 11 [⟨0, 1⟩], mkSnap 9 11 [⟨1, 2⟩], mkSnap 9 11 [⟨2, 3⟩]]).snapshot_variants.length = 3 ∧
    (recordAll [mkSnap 9 11 [⟨0, 1⟩], mkSnap 9 11 [⟨1, 2⟩], mkSnap 9 11 [⟨2, 3⟩]]).records = [0, 1, 2] :=
  c2_amended 9 11 [⟨0, 1⟩] [⟨1, 2⟩] [⟨2, 3⟩] (by decide) (by decide) (by decide)

/- ===================== C3 ===================== -/

/-- C3 counterexample: for the chronological stack-pointer-offset course
[10, 20, 30, 40], calculate_statistics returns median 20, not the claimed
25: at fractional rank 1.5 the source computes
`lo + (hi - lo) * d as u32`, and the cast truncates d = 0.5 to 0, so no
interpolation toward 30 happens. -/
theorem c3_counterexample :
    (c3rec.calculate_statistics).map RamStatistics.median_stack_ptr_off = some 20 ∧
    (c3rec.calculate_statistics).map RamStatistics.median_stack_ptr_off ≠ some 25 := by
  decide

/-- C3 amended: for the course [10, 20, 30, 40] calculate_statistics
returns median 20 (the fractional part of the interpolation rank is
truncated to an integer factor of 0 by the `d as u32` cast, leaving the
lower neighbour 20) and maximum 40. -/
theorem c3_amended :
    (c3rec.calculate_statistics).map RamStatistics.median_stack_ptr_off = some 20 ∧
    (c3rec.calculate_statistics).map RamStatistics.max_stack_ptr_off = some 40 ∧
    (c3rec.calculate_statistics).map RamStatistics.stack_ptr_course = some [10, 20, 30, 40] := by
  decide

/- ===================== C4 ===================== -/

/-- C4: the claim says every byte differing from the sentinel 0x55 bumps
the touched-byte count exactly once.  Evaluating the code at the stream
[0x55, 0x99] (one untouched byte, then one touched byte): the touched
byte is counted twice — once in the noise-window branch and once in the
unconditional classification branch — so used_bytes is 2 although only
one touched byte was visited.  The claim (and the spec's own example with
touched-byte count 2 for two touched bytes) is right; the code is wrong. -/
theorem c4_double_count :
    ((scanLoop (initScanState 1000) [85, 153]).1).used_bytes = 2 ∧
    touchedCount [85, 153] = 1 ∧
    (scanLoop (initScanState 1000) [85, 153]).2 = 2 := by
  decide

/- ===================== C5 ===================== -/

/-- C5 counterexample: entering the bracket with the core running
(core_halted = false) and a failing wrapped access, the error propagates
through `?` before the `if !prev_state_halt { self.run()?; }` line, so
the core is left halted on exit — the exit run-state differs from the
entry run-state on this exit path. -/
theorem c5_counterexample :
    (access_only_in_halt_mode false (Except.error () : Except Unit Nat)).2 = true ∧
    (access_only_in_halt_mode false (Except.error () : Except Unit Nat)).2 ≠ false := by
  decide

/-- C5 amended: if the core was already halted on entry it is left halted
on every exit path with no implicit resume (and the wrapped result is
passed through); when entered running, the entry run-state is restored on
the success path, but on the error path the resume is skipped and the
core is left halted. -/
theorem c5_amended (fr : Except Unit Nat) (v : Nat) (e : Unit) :
    (access_only_in_halt_mode true fr).2 = true ∧
    (access_only_in_halt_mode true fr).1 = fr ∧
    (access_only_in_halt_mode false (Except.ok v : Except Unit Nat)).2 = false ∧
    (access_only_in_halt_mode false (Except.error e : Except Unit Nat)).2 = true := by
  cases fr <;> simp [access_only_in_halt_mode]

/-- C5 amended, witness: the amended statement at concrete inputs. -/
theorem c5_amended_witness :
    (access_only_in_halt_mode true (Except.ok 7 : Except Unit Nat)).2 = true ∧
    (access_only_in_halt_mode true (Except.ok 7 : Except Unit Nat)).1 = Except.ok 7 ∧
    (access_only_in_halt_mode false (Except.ok 7 : Except Unit Nat)).2 = false ∧
    (access_only_in_halt_mode false (Except.error () : Except Unit Nat)).2 = true :=
  c5_amended (Except.ok 7) 7 ()

/- ===================== C6 ===================== -/

/-- C6 counterexample: a scan whose final program counter (0x30) lies in
no indexed function range does not return a snapshot labelled
"unresolved": the `.unwrap()` on get_function_based_on_addr panics, so no
RamSnapshot is produced at all. -/
theorem c6_counterexample :
    asmC6.get_function_based_on_addr 48 = none ∧
    calculate_used_ram 1000 [] 990 48 asmC6 = none := by
  decide

/-- C6 amended: whenever the final program counter is contained in no
function's address range, calculate_used_ram aborts (panics on the
unwrap of the failed lookup) instead of returning a RamSnapshot with an
"unresolved" label. -/
theorem c6_amended (stack_ptr : Nat) (mem : List Nat) (act_stack_ptr instr_ptr : Nat)
    (asm : AsmFile) (h : asm.get_function_based_on_addr instr_ptr = none) :
    calculate_used_ram stack_ptr mem act_stack_ptr instr_ptr asm = none := by
  simp [calculate_used_ram, h]

/-- C6 amended, witness: the amended statement at a concrete index and
program counter. -/
theorem c6_amended_witness :
    calculate_used_ram 1000 [85, 153] 990 48 asmC6 = none :=
  c6_amended 1000 [85, 153] 990 48 asmC6 (by decide)

/- ===================== C7 ===================== -/

/-- C7: parsing the two-function listing (A at 0x10 with bl-instructions
to B at 0x1e and 0x1f, B at 0x20 with a last instruction at 0x2f) yields
an index on which resolve(0x10) and resolve(0x1f) return A,
resolve(0x20) returns B, resolve(0x30) is not found, and the
deduplicated-by-name direct callees of A are exactly [B]. -/
theorem c7_parse_and_queries :
    c7res.isOkB = true ∧
    resolveName c7res 16 = some "A" ∧
    resolveName c7res 31 = some "A" ∧
    resolveName c7res 32 = some "B" ∧
    resolveName c7res 48 = none ∧
    calleeNames c7res "A" = some (some ["B"]) := by
  decide

/- ===================== C8 ===================== -/

/- The range-close check never touches the noise counter (it only closes
the open range and clears offset_mem). -/
theorem closeCheck_test_offset (st : ScanState) : (closeCheck st).test_offset = st.test_offset := by
  unfold closeCheck
  split
  · cases st.act_range <;> rfl
  · rfl

/- One unfolding of the scan loop for each outcome of step 1. -/
theorem scanLoop_cons_true (st st1 : ScanState) (m : Nat) (rest : List Nat)
    (h : scanStep1 st m = (st1, true)) : scanLoop st (m :: rest) = (st1, 1) := by
  simp [scanLoop, h]

theorem scanLoop_cons_false (st st1 : ScanState) (m : Nat) (rest : List Nat)
    (h : scanStep1 st m = (st1, false)) :
    scanLoop st (m :: rest) =
      ((scanLoop (scanStep2 st1 m) rest).1, (scanLoop (scanStep2 st1 m) rest).2 + 1) := by
  simp [scanLoop, h]

/- Step 1 is the identity (and never breaks) while the in-offset flag is
down. -/
theorem scanStep1_flagFalse (st : ScanState) (m : Nat) (hf : st.in_offset_flag = false) :
    scanStep1 st m = (st, false) := by
  simp [scanStep1, hf]

/- Step 1 on a sentinel byte inside an untouched run: push the byte, run
the close check, decrement the noise counter — breaking exactly when it
already was 0. -/
theorem scanStep1_85_noBreak (st : ScanState) (hf : st.in_offset_flag = true)
    (ht : st.test_offset ≠ 0) :
    scanStep1 st 85 =
      ({ closeCheck { st with offset_mem := st.offset_mem ++ [85] } with
          test_offset := (closeCheck { st with offset_mem := st.offset_mem ++ [85] }).test_offset - 1 },
        false) := by
  simp [scanStep1, hf, closeCheck_test_offset, ht]

theorem scanStep1_85_break (st : ScanState) (hf : st.in_offset_flag = true)
    (ht : st.test_offset = 0) :
    scanStep1 st 85 = (closeCheck { st with offset_mem := st.offset_mem ++ [85] }, true) := by
  simp [scanStep1, hf, closeCheck_test_offset, ht]

/- Step 2 on a sentinel byte: set the in-offset flag and move down one
address. -/
theorem scanStep2_85 (st : ScanState) :
    scanStep2 st 85 = { st with in_offset_flag := true, address := st.address - 1 } := by
  simp [scanStep2]

/- Core of the abort count, over an arbitrary loop state: with the
in-offset flag up and the noise counter at j, reading j + 1 further
sentinel bytes reaches the `test_offset == 0` break exactly on the last
of them, whatever bytes follow and whatever the other state components
(open range, collected ranges, noise buffer) hold — the close check
never alters flag or counter. -/
theorem scan_run_from_counter (j : Nat) :
    ∀ st : ScanState, st.in_offset_flag = true → st.test_offset = j →
      ∀ tail : List Nat,
        (scanLoop st (List.replicate (j + 1) 85 ++ tail)).2 = j + 1 := by
  induction j with
  | zero =>
    intro st hf ht tail
    rw [List.replicate_succ, List.replicate_zero, List.cons_append, List.nil_append,
      scanLoop_cons_true _ _ _ _ (scanStep1_85_break st hf ht)]
  | succ j ih =>
    intro st hf ht tail
    rw [List.replicate_succ, List.cons_append,
      scanLoop_cons_false _ _ _ _
        (scanStep1_85_noBreak st hf (by rw [ht]; exact Nat.succ_ne_zero j)),
      scanStep2_85,
      ih _ rfl (by simp [closeCheck_test_offset, ht]) tail]

/- From any loop state with the noise machinery in its reset state (flag
down, counter full) — as at scan start or right after a touched byte —
130 consecutive sentinel bytes terminate the scan at the 130th. -/
theorem scan_run_start (st : ScanState) (hf : st.in_offset_flag = false)
    (ht : st.test_offset = 128) (tail : List Nat) :
    (scanLoop st (List.replicate 130 85 ++ tail)).2 = 130 := by
  rw [List.replicate_succ, List.cons_append,
    scanLoop_cons_false _ _ _ _ (scanStep1_flagFalse st 85 hf), scanStep2_85]
  have h2 := scan_run_from_counter 128
    { st with in_offset_flag := true, address := st.address - 1 } rfl (by simp [ht]) tail
  norm_num at h2
  rw [h2]

/- A touched byte puts the loop state back into the reset state (the
invariant `flag down → counter full` holds at scan start and, by the next
lemma, at every iteration). -/
theorem scanStep_touched_reset (st : ScanState) (m : Nat) (hm : m ≠ 85)
    (hinv : st.in_offset_flag = false → st.test_offset = 128) :
    (scanStep2 (scanStep1 st m).1 m).in_offset_flag = false ∧
    (scanStep2 (scanStep1 st m).1 m).test_offset = 128 := by
  cases hf : st.in_offset_flag with
  | true => simp [scanStep1, scanStep2, hf, hm]
  | false => simp [scanStep1, scanStep2, hf, hm, hinv hf]

/- Each loop iteration preserves the reset-state invariant. -/
theorem scanStep_reset_preserved (st : ScanState) (m : Nat)
    (hinv : st.in_offset_flag = false → st.test_offset = 128) :
    (scanStep2 (scanStep1 st m).1 m).in_offset_flag = false →
    (scanStep2 (scanStep1 st m).1 m).test_offset = 128 := by
  by_cases hm : m = 85
  · subst hm
    intro hflag
    rw [scanStep2_85] at hflag
    simp at hflag
  · intro _
    exact (scanStep_touched_reset st m hm hinv).2

/- The loop performs one read per iteration, so it can never consume more
reads than the memory interface serves before failing. -/
theorem scanLoop_le (l : List Nat) : ∀ st : ScanState, (scanLoop st l).2 ≤ l.length := by
  induction l with
  | nil => intro st; simp [scanLoop]
  | cons m rest ih =>
    intro st
    simp only [scanLoop]
    cases h : scanStep1 st m with
    | mk st1 brk =>
      cases brk with
      | true => simp [List.length_cons, Nat.succ_le_succ (Nat.zero_le rest.length)]
      | false => simpa using Nat.succ_le_succ (ih (scanStep2 st1 m))

set_option maxRecDepth 4000 in
/-- C8 counterexample: were the scan to stop as soon as the untouched run
exceeds the 128-byte abort threshold, it would perform 129 reads on an
all-sentinel memory; the code performs 130 reads (the noise counter is
only started at the second byte of the run and the break fires on the
byte after it has counted down to 0). -/
theorem c8_counterexample :
    (scanLoop (initScanState 100000) (List.replicate 130 85)).2 = 130 ∧
    (scanLoop (initScanState 100000) (List.replicate 130 85)).2 ≠ 129 := by
  decide

/-- C8 amended: for every scan, a maximal run of consecutive untouched
(sentinel-valued) bytes begins with the noise machinery in its reset
state — in_offset_flag down and test_offset at its full 128: (2) that is
the initial scan state, (3) the state immediately after every touched
byte, and (4) the property `flag down → counter full` is preserved by
every loop iteration.  (1) From any such state — any scan, any position,
whatever the open range, collected ranges and noise buffer hold — the
scan terminates as soon as 130 consecutive untouched bytes have been
read, the break firing while reading the 130th, whatever bytes follow:
the run must exceed 129 bytes, not 128.  (5) In particular a scan whose
memory serves a touched byte and then 130 sentinel bytes stops at read
131, the run's 130th byte.  (6) Independently, a failing memory read
(modelled as the end of the served-read list) terminates the scan: from
any state it never consumes more reads than the memory interface
serves. -/
theorem c8_amended :
    (∀ (st : ScanState) (tail : List Nat),
      st.in_offset_flag = false → st.test_offset = 128 →
      (scanLoop st (List.replicate 130 85 ++ tail)).2 = 130) ∧
    (∀ stack_ptr : Nat,
      (initScanState stack_ptr).in_offset_flag = false ∧
      (initScanState stack_ptr).test_offset = 128) ∧
    (∀ (st : ScanState) (m : Nat), m ≠ 85 →
      (st.in_offset_flag = false → st.test_offset = 128) →
      (scanStep2 (scanStep1 st m).1 m).in_offset_flag = false ∧
      (scanStep2 (scanStep1 st m).1 m).test_offset = 128) ∧
    (∀ (st : ScanState) (m : Nat),
      (st.in_offset_flag = false → st.test_offset = 128) →
      ((scanStep2 (scanStep1 st m).1 m).in_offset_flag = false →
        (scanStep2 (scanStep1 st m).1 m).test_offset = 128)) ∧
    (∀ (stack_ptr : Nat) (tail : List Nat),
      (scanLoop (initScanState stack_ptr) (153 :: (List.replicate 130 85 ++ tail))).2 = 131) ∧
    (∀ (st : ScanState) (bs : List Nat), (scanLoop st bs).2 ≤ bs.length) := by
  refine ⟨fun st tail hf ht => scan_run_start st hf ht tail, fun stack_ptr => ⟨rfl, rfl⟩,
    scanStep_touched_reset, scanStep_reset_preserved, ?_, fun st bs => scanLoop_le bs st⟩
  intro stack_ptr tail
  have h1 : scanStep1 (initScanState stack_ptr) 153 = (initScanState stack_ptr, false) :=
    scanStep1_flagFalse _ 153 rfl
  rw [scanLoop_cons_false _ _ _ _ h1]
  have h2 : scanStep2 (initScanState stack_ptr) 153 =
      ⟨1, stack_ptr - 1 - 1, [], false, 128, some ⟨stack_ptr - 1⟩, []⟩ := by
    simp [scanStep2, initScanState, UsedRange.new]
  rw [h2, scan_run_start _ rfl rfl tail]

/-- C8 amended, witness: the run-start termination applied at a mid-scan
state (used bytes counted, an open range and an already-collected range),
and the touched-byte probe at a concrete scan. -/
theorem c8_amended_witness :
    (scanLoop ⟨3, 900, [], false, 128, some ⟨950⟩, [⟨960, 990⟩]⟩
      (List.replicate 130 85 ++ [7])).2 = 130 ∧
    (scanLoop (initScanState 1000) (153 :: (List.replicate 130 85 ++ [9]))).2 = 131 :=
  ⟨c8_amended.1 ⟨3, 900, [], false, 128, some ⟨950⟩, [⟨960, 990⟩]⟩ [7] rfl rfl,
    c8_amended.2.2.2.2.1 1000 [9]⟩

/- ===================== C9 ===================== -/

/- The line loop processes a concatenation sequentially, propagating the
first non-ok outcome. -/
theorem processLines_append (xs : List String) :
    ∀ (ys : List String) (st : ParserState),
      processLines st (xs ++ ys) =
        match processLines st xs with
        | StepRes.ok st2 => processLines st2 ys
        | r => r := by
  induction xs with
  | nil => intro ys st; rfl
  | cons x xs ih =>
    intro ys st
    rw [List.cons_append]
    simp only [processLines]
    cases processLine st x with
    | ok st2 => exact ih ys st2
    | err e => rfl
    | panic => rfl

/- A line whose first recognised address capture fails hex parsing makes
the loop body return AddrParseError with that capture, whatever the
parser state: in both the heading and the instruction branch the address
is parsed before the accumulator is touched. -/
theorem processLine_badAddr (line : String) (s : String)
    (h : lineBadAddr line = some s) :
    ∀ st : ParserState, processLine st line = StepRes.err (AsmError.AddrParseError s) := by
  intro st
  unfold lineBadAddr at h
  unfold processLine
  cases hh : matchHeading line with
  | some p =>
    obtain ⟨a, b⟩ := p
    rw [hh] at h
    cases hx : from_str_radix_16 a with
    | some v => simp [hx] at h
    | none =>
      simp [hx] at h
      subst h
      simp [hx]
  | none =>
    rw [hh] at h
    cases hi : matchInstr line with
    | some p =>
      obtain ⟨a, b⟩ := p
      rw [hi] at h
      cases hx : from_str_radix_16 a with
      | some v => simp [hx] at h
      | none =>
        simp [hx] at h
        subst h
        simp [hx]
    | none => simp [hi] at h

/-- C9 counterexample: on the listing ["zz <A>:"] the build fails, but
with AddrParseError "zz" — an error identifying the offending address
text; no parse-error value carrying a line index is produced (only
LineParseError carries one, and it is reserved for unreadable lines). -/
theorem c9_counterexample :
    parse_asm_file ["zz <A>:"] = ParseRes.err (AsmError.AddrParseError "zz") ∧
    parseErrHasLineIdx (parse_asm_file ["zz <A>:"]) = false := by
  decide

/-- C9 amended: for every listing in which, after an error-free prefix, a
function-header or instruction line's address field fails hexadecimal
parsing, the build fails with AddrParseError identifying the offending
address text (not the line index; the line index only accompanies
line-read failures). -/
theorem c9_amended (pre : List String) (line : String) (post : List String)
    (st : ParserState) (s : String)
    (h1 : processLines initParserState pre = StepRes.ok st)
    (h2 : lineBadAddr line = some s) :
    parse_asm_file (pre ++ line :: post) = ParseRes.err (AsmError.AddrParseError s) := by
  unfold parse_asm_file
  rw [processLines_append, h1]
  simp only [processLines]
  rw [processLine_badAddr line s h2 st]

/-- C9 amended, witness: the amended statement at the concrete one-line
listing whose header address is the unparseable "zz". -/
theorem c9_amended_witness :
    parse_asm_file (([] : List String) ++ "zz <A>:" :: []) =
      ParseRes.err (AsmError.AddrParseError "zz") :=
  c9_amended [] "zz <A>:" [] initParserState "zz" (by decide) (by decide)

/- ===================== C10 ===================== -/

/- A found position is always inside the searched list. -/
theorem position_lt {α : Type} (p : α → Bool) :
    ∀ (l : List α) (i : Nat), position p l = some i → i < l.length := by
  intro l
  induction l with
  | nil => intro i h; simp [position] at h
  | cons a as ih =>
    intro i h
    simp only [position] at h
    by_cases hp : p a
    · rw [if_pos hp] at h
      cases h
      simp
    · rw [if_neg hp] at h
      cases hj : position p as with
      | none => rw [hj] at h; simp at h
      | some j =>
        rw [hj] at h
        simp at h
        have := ih j hj
        simp [List.length_cons]
        omega

/- Every stored chronological index points inside the variant table. -/
def recInv (r : RamSnapshotRecorder) : Prop :=
  ∀ i ∈ r.records, i < r.snapshot_variants.length

/- One record call preserves the invariant and appends exactly one
index. -/
theorem record_step (r : RamSnapshotRecorder) (s : RamSnapshot) (hr : recInv r) :
    recInv (r.record s) ∧ (r.record s).records.length = r.records.length + 1 := by
  unfold RamSnapshotRecorder.record
  cases hp : position (fun v => RamSnapshot.peq v s) r.snapshot_variants with
  | some index =>
    refine ⟨?_, by simp⟩
    intro i hi
    simp at hi
    cases hi with
    | inl hmem => exact hr i hmem
    | inr heq => subst heq; exact position_lt _ _ _ hp
  | none =>
    refine ⟨?_, by simp⟩
    intro i hi
    simp at hi
    cases hi with
    | inl hmem => simpa using Nat.lt_succ_of_lt (by simpa using hr i hmem)
    | inr heq => subst heq; simp

/- Folding record over any snapshot list preserves the invariant and
appends one index per snapshot. -/
theorem recordAll_inv (snaps : List RamSnapshot) :
    ∀ r : RamSnapshotRecorder, recInv r →
      recInv (snaps.foldl RamSnapshotRecorder.record r) ∧
      (snaps.foldl RamSnapshotRecorder.record r).records.length =
        r.records.length + snaps.length := by
  induction snaps with
  | nil => intro r hr; exact ⟨hr, rfl⟩
  | cons s snaps ih =>
    intro r hr
    obtain ⟨h1, h2⟩ := record_step r s hr
    obtain ⟨h3, h4⟩ := ih (r.record s) h1
    refine ⟨h3, ?_⟩
    rw [List.foldl_cons]
    simp only [List.length_cons]
    omega

/-- C10: after any sequence of record calls on a fresh recorder, the
chronological index list has exactly one entry per call and every stored
index is strictly below the variant-table length, so the index
dereferences in get_records and calculate_statistics are in bounds. -/
theorem c10_recorder_invariant (snaps : List RamSnapshot) :
    (recordAll snaps).records.length = snaps.length ∧
    ((recordAll snaps).records.all
      (fun i => decide (i < (recordAll snaps).snapshot_variants.length))) = true := by
  have hinv : recInv (RamSnapshotRecorder.new 0 0) := by
    intro i hi
    simp [RamSnapshotRecorder.new] at hi
  obtain ⟨h1, h2⟩ := recordAll_inv snaps (RamSnapshotRecorder.new 0 0) hinv
  refine ⟨by simpa [recordAll, RamSnapshotRecorder.new] using h2, ?_⟩
  rw [List.all_eq_true]
  intro i hi
  exact decide_eq_true (h1 i hi)
